import Mathlib

/-!
Verification of the session/signaling orchestration layer of a WebRTC
video-chat client (App.jsx).  The state variables, refs and socket event
handlers of the React component are embedded as pure functions over an
explicit session-state record; connection objects and media streams are
kept in arenas (lists indexed by allocation order) so that closing a
connection or stopping a track is visible as a flag even after a map
binding is dropped.
-/

namespace WebRTCApp

/-- Kind of a local media track (getUserMedia returns one of each here). -/
inductive TrackKind
  | video
  | audio
deriving DecidableEq, Repr

/-- A local capture track: `enabled` mirrors track.enabled, `stopped`
records that track.stop() has been called. -/
structure MediaTrack where
  kind : TrackKind
  enabled : Bool
  stopped : Bool
deriving DecidableEq, Repr

/-- One entry of the remoteVideos state array: id, optional media stream
handle (modelled as a numeric id), and the two activity flags.  The flags
are Option Bool because the JS merge in ontrack guards against undefined. -/
structure RemoteVideo where
  id : String
  stream : Option Nat
  videoActive : Option Bool
  audioActive : Option Bool
deriving DecidableEq, Repr

/-- RTCPeerConnection signaling states used by this client. -/
inductive SigState
  | stable
  | haveLocalOffer
  | haveRemoteOffer
deriving DecidableEq, Repr

/-- Session description type. -/
inductive DescType
  | offer
  | answer
deriving DecidableEq, Repr

/-- An RTCPeerConnection as observed by the client: closed flag, signaling
state, whether local tracks were attached at creation, how many times
setRemoteDescription was invoked on it, and how many of those invocations
the platform accepted. -/
structure PeerConn where
  closed : Bool
  sigState : SigState
  tracksAttached : Bool
  setRemoteAttempts : Nat
  remoteDescApplied : Nat
deriving DecidableEq, Repr

/-- Messages the client emits on the socket. -/
inductive OutMsg
  | checkRoom (roomId : String)
  | joinRoomMsg (roomId : String)
  | offerMsg (target : String) (caller : String)
  | answerMsg (target : String)
  | videoStateChangeMsg (enabled : Bool)
  | audioStateChangeMsg (enabled : Bool)
deriving DecidableEq, Repr

/-- Arena read: element at an allocation index. -/
def listAt {α : Type} : List α → Nat → Option α
  | [], _ => none
  | a :: _, 0 => some a
  | _ :: l, n + 1 => listAt l n

/-- Arena update: apply a function to the element at an index (no-op when
the index is out of range). -/
def listModify {α : Type} : List α → Nat → (α → α) → List α
  | [], _, _ => []
  | a :: l, 0, f => f a :: l
  | a :: l, n + 1, f => a :: listModify l n f

/-- The component state of App: UI state variables, the peersRef map
(participant id to connection arena index), the connection arena, the
stream arena with the localStreamRef index, and the remoteVideos array. -/
structure SessState where
  selfId : String
  socketExists : Bool
  socketConnected : Bool
  joined : Bool
  roomId : String
  roomUrl : String
  errorMsg : String
  isCreator : Bool
  isMuted : Bool
  isVideoEnabled : Bool
  participantCount : Nat
  peers : List (String × Nat)
  conns : List PeerConn
  streams : List (List MediaTrack)
  localStream : Option Nat
  remoteVideos : List RemoteVideo
  mediaRequests : Nat
deriving DecidableEq, Repr

/-- Lookup in the peersRef object. -/
def peersLookup (userId : String) (peers : List (String × Nat)) : Option Nat :=
  (peers.find? (fun p => p.1 == userId)).map (fun p => p.2)

/-- Assignment peersRef.current[userId] = peer: any previous binding for
the same key is dropped (the object keeps one value per key). -/
def peersInsert (userId : String) (cid : Nat) (peers : List (String × Nat)) :
    List (String × Nat) :=
  (userId, cid) :: peers.filter (fun p => !(p.1 == userId))

/-- delete peersRef.current[userId]. -/
def peersErase (userId : String) (peers : List (String × Nat)) : List (String × Nat) :=
  peers.filter (fun p => !(p.1 == userId))

/-- Initial component state right after mount (socket initialized). -/
def initState (selfId : String) : SessState :=
  { selfId := selfId
    socketExists := true
    socketConnected := true
    joined := false
    roomId := ""
    roomUrl := ""
    errorMsg := ""
    isCreator := false
    isMuted := false
    isVideoEnabled := true
    participantCount := 1
    peers := []
    conns := []
    streams := []
    localStream := none
    remoteVideos := []
    mediaRequests := 0 }

/-- Platform semantics of pc.setRemoteDescription: the call is always
attempted (counter increments); it succeeds only in the signaling states
the platform allows for the given description type, otherwise it throws
(returned Bool false) leaving signaling state and applied count unchanged. -/
def applyRemoteDesc (c : PeerConn) (d : DescType) : PeerConn × Bool :=
  let c1 := { c with setRemoteAttempts := c.setRemoteAttempts + 1 }
  if c.closed then (c1, false)
  else
    match d, c.sigState with
    | DescType.offer, SigState.stable =>
        ({ c1 with sigState := SigState.haveRemoteOffer,
                   remoteDescApplied := c1.remoteDescApplied + 1 }, true)
    | DescType.offer, SigState.haveRemoteOffer =>
        ({ c1 with remoteDescApplied := c1.remoteDescApplied + 1 }, true)
    | DescType.answer, SigState.haveLocalOffer =>
        ({ c1 with sigState := SigState.stable,
                   remoteDescApplied := c1.remoteDescApplied + 1 }, true)
    | _, _ => (c1, false)

/-- new RTCPeerConnection plus the addTrack loop: tracks are attached
exactly when a local stream is present (else the code only warns). -/
def newConn (tracks : Bool) : PeerConn :=
  { closed := false
    sigState := SigState.stable
    tracksAttached := tracks
    setRemoteAttempts := 0
    remoteDescApplied := 0 }

/-- addPeer(userId, ...) followed by the callers' peersRef assignment:
allocates a responder-side connection and binds it in the peer map. -/
def addPeer (userId : String) (st : SessState) : SessState × Nat :=
  let cid := st.conns.length
  ({ st with conns := st.conns ++ [newConn st.localStream.isSome]
             peers := peersInsert userId cid st.peers }, cid)

/-- createPeer(userId, callerId, ...) followed by the peersRef assignment:
allocates an initiator-side connection (createOffer + setLocalDescription
moves it to have-local-offer) and emits the offer addressed to userId. -/
def createPeer (userId : String) (st : SessState) : SessState × List OutMsg :=
  let cid := st.conns.length
  ({ st with conns := st.conns ++ [{ newConn st.localStream.isSome with
                                     sigState := SigState.haveLocalOffer }]
             peers := peersInsert userId cid st.peers },
   [OutMsg.offerMsg userId st.selfId])

/-- handleAllUsers: set participant count to users.length + 1, then create
one initiator peer per listed occupant. -/
def handleAllUsers (users : List String) (st : SessState) : SessState × List OutMsg :=
  let st1 := { st with participantCount := users.length + 1 }
  users.foldl (fun acc u =>
    let r := createPeer u acc.1
    (r.1, acc.2 ++ r.2)) (st1, [])

/-- handleUserJoined: ignore our own id, else increment the count and bind
a fresh responder peer (overwriting any existing binding for that id). -/
def handleUserJoined (userId : String) (st : SessState) : SessState :=
  if userId == st.selfId then st
  else
    (addPeer userId { st with participantCount := st.participantCount + 1 }).1

/-- handleOffer: reuse the bound connection or create one on the fly, then
setRemoteDescription(offer); on success createAnswer + setLocalDescription
(signaling state returns to stable) and emit the answer to the caller; a
thrown error is caught and logged, so no answer is emitted. -/
def handleOffer (caller : String) (st : SessState) : SessState × List OutMsg :=
  let pr := match peersLookup caller st.peers with
    | some cid => (st, cid)
    | none => addPeer caller st
  let st1 := pr.1
  let cid := pr.2
  match listAt st1.conns cid with
  | none => (st1, [])
  | some c =>
    let ar := applyRemoteDesc c DescType.offer
    if ar.2 then
      ({ st1 with conns := listModify st1.conns cid
                    (fun _ => { ar.1 with sigState := SigState.stable }) },
       [OutMsg.answerMsg caller])
    else
      ({ st1 with conns := listModify st1.conns cid (fun _ => ar.1) }, [])

/-- handleAnswer: if a connection is bound for the caller, unconditionally
call setRemoteDescription(answer) on it; a thrown error is caught and
logged (state keeps the failed attempt only). -/
def handleAnswer (caller : String) (st : SessState) : SessState :=
  match peersLookup caller st.peers with
  | none => st
  | some cid =>
    { st with conns := listModify st.conns cid
                (fun c => (applyRemoteDesc c DescType.answer).1) }

/-- peer.ontrack merge into remoteVideos: update the existing entry with
the new stream, defaulting flags to true only when undefined; otherwise
append a fresh entry with both flags true. -/
def ontrackUpdate (userId : String) (streamId : Nat) (prev : List RemoteVideo) :
    List RemoteVideo :=
  if prev.any (fun v => v.id == userId) then
    prev.map (fun v =>
      if v.id == userId then
        { v with stream := some streamId
                 videoActive := some (v.videoActive.getD true)
                 audioActive := some (v.audioActive.getD true) }
      else v)
  else
    prev ++ [{ id := userId, stream := some streamId,
               videoActive := some true, audioActive := some true }]

/-- handleRemoteVideoStateChange: update only a matching entry's video
flag; an unknown id matches nothing and the event is dropped. -/
def handleRemoteVideoStateChange (userId : String) (videoEnabled : Bool)
    (prev : List RemoteVideo) : List RemoteVideo :=
  prev.map (fun v =>
    if v.id == userId then { v with videoActive := some videoEnabled } else v)

/-- handleRemoteAudioStateChange: same shape for the audio flag. -/
def handleRemoteAudioStateChange (userId : String) (audioEnabled : Bool)
    (prev : List RemoteVideo) : List RemoteVideo :=
  prev.map (fun v =>
    if v.id == userId then { v with audioActive := some audioEnabled } else v)

/-- Lookup of an own property in a received state-snapshot object. -/
def snapshotLookup (states : List (String × Bool)) (k : String) : Option Bool :=
  (states.find? (fun q => q.1 == k)).map (fun q => q.2)

/-- handleInitialAudioStates: update the audio flag of entries whose id is
a key of the snapshot; entries only, no new ids are added. -/
def handleInitialAudioStates (states : List (String × Bool))
    (prev : List RemoteVideo) : List RemoteVideo :=
  prev.map (fun v =>
    match snapshotLookup states v.id with
    | some b => { v with audioActive := some b }
    | none => v)

/-- handleInitialVideoStates: update matching entries and append an entry
(stream null, audio true) for every snapshot key not yet present. -/
def handleInitialVideoStates (states : List (String × Bool))
    (prev : List RemoteVideo) : List RemoteVideo :=
  let updated := prev.map (fun v =>
    match snapshotLookup states v.id with
    | some b => { v with videoActive := some b }
    | none => v)
  let newIds := (states.map (fun q => q.1)).filter
    (fun uid => !(prev.any (fun v => v.id == uid)))
  updated ++ newIds.map (fun uid =>
    { id := uid, stream := none,
      videoActive := some ((snapshotLookup states uid).getD true),
      audioActive := some true })

/-- handleUserDisconnected: only when a connection is bound for the id,
close it, drop the binding, filter the entry out of remoteVideos, and
decrement the participant count clamped at one. -/
def handleUserDisconnected (userId : String) (st : SessState) : SessState :=
  match peersLookup userId st.peers with
  | none => st
  | some cid =>
    { st with conns := listModify st.conns cid (fun c => { c with closed := true })
              peers := peersErase userId st.peers
              remoteVideos := st.remoteVideos.filter (fun v => !(v.id == userId))
              participantCount := max 1 (st.participantCount - 1) }

/-- getMediaStream: the getUserMedia call either yields a fresh stream
(stored in the arena and made current, with the UI flags derived from the
first track of each kind) or fails, setting the device error message. -/
def getMediaStream (media : Option (List MediaTrack)) (st : SessState) :
    SessState × Bool :=
  let st1 := { st with mediaRequests := st.mediaRequests + 1 }
  match media with
  | some tracks =>
    let vHead := (tracks.filter (fun t => t.kind == TrackKind.video)).head?
    let aHead := (tracks.filter (fun t => t.kind == TrackKind.audio)).head?
    ({ st1 with streams := st1.streams ++ [tracks]
                localStream := some st1.streams.length
                isVideoEnabled := match vHead with
                  | some t => t.enabled
                  | none => false
                isMuted := match aHead with
                  | some t => !t.enabled
                  | none => false }, true)
  | none =>
    ({ st1 with errorMsg := "Error accessing camera or microphone" }, false)

/-- Error text shown when joining with an empty room id. -/
def emptyIdMsg : String := "Please enter a Room ID"

/-- Error text shown when the existence check answers false. -/
def roomNotFoundMsg : String :=
  "This room does not exist. Please check the Room ID or create a new room."

/-- Error text shown when media acquisition fails during join. -/
def mediaFailMsg : String :=
  "Failed to get camera/microphone access. Please ensure permissions are granted."

/-- joinRoom(idToJoin): reject an empty id; ensure a connected socket;
clear the error; emit check-room and await the correlated room-exists
reply (passed here as the roomExists oracle); on a negative reply set the
not-found error and stop; else acquire media (failure sets the access
error and stops); on success emit join-room and mark joined. -/
def joinRoom (idToJoin : String) (roomExists : Bool)
    (media : Option (List MediaTrack)) (st : SessState) :
    SessState × List OutMsg :=
  if idToJoin == "" then
    ({ st with errorMsg := emptyIdMsg }, [])
  else
    let st1 := if st.socketExists && st.socketConnected then st
               else { st with socketExists := true, socketConnected := true }
    let st2 := { st1 with errorMsg := "" }
    if !roomExists then
      ({ st2 with errorMsg := roomNotFoundMsg }, [OutMsg.checkRoom idToJoin])
    else
      let mr := getMediaStream media st2
      if mr.2 then
        ({ mr.1 with joined := true },
         [OutMsg.checkRoom idToJoin, OutMsg.joinRoomMsg idToJoin])
      else
        ({ mr.1 with errorMsg := mediaFailMsg }, [OutMsg.checkRoom idToJoin])

/-- track.stop() on every track of a stream. -/
def stopTracks (ts : List MediaTrack) : List MediaTrack :=
  ts.map (fun t => { t with stopped := true })

/-- leaveRoom: stop all tracks of the current stream and drop the ref,
close every connection bound in the peer map and clear the map, reset the
remote collection and all room state, and cycle the socket (disconnect
plus scheduled re-initialization, netting a fresh connected socket). -/
def leaveRoom (st : SessState) : SessState :=
  let streams1 := match st.localStream with
    | some sid => listModify st.streams sid stopTracks
    | none => st.streams
  let conns1 := st.peers.foldl
    (fun cs p => listModify cs p.2 (fun c => { c with closed := true })) st.conns
  { st with streams := streams1
            localStream := none
            conns := conns1
            peers := []
            remoteVideos := []
            joined := false
            isCreator := false
            roomId := ""
            roomUrl := ""
            errorMsg := ""
            participantCount := 1
            socketExists := true
            socketConnected := true }

/-- toggleVideo: with a current stream, flip the video flag, set enabled on
every video track of that stream (sender.replaceTrack reuses the same
track object, no state change), and when a socket exists and we are
joined, emit exactly one videoStateChange carrying the new value. -/
def toggleVideo (st : SessState) : SessState × List OutMsg :=
  match st.localStream with
  | none => (st, [])
  | some sid =>
    let newVideoState := !st.isVideoEnabled
    let st1 := { st with
      streams := listModify st.streams sid (fun ts => ts.map (fun t =>
        if t.kind == TrackKind.video then { t with enabled := newVideoState } else t))
      isVideoEnabled := newVideoState }
    if st1.socketExists && st1.joined then
      (st1, [OutMsg.videoStateChangeMsg newVideoState])
    else (st1, [])

/-- toggleMute: with a current stream, flip the mute flag, set enabled on
every audio track accordingly, and when a socket exists and we are joined,
emit one audioStateChange with the new enabled value. -/
def toggleMute (st : SessState) : SessState × List OutMsg :=
  match st.localStream with
  | none => (st, [])
  | some sid =>
    let newMuteState := !st.isMuted
    let st1 := { st with
      streams := listModify st.streams sid (fun ts => ts.map (fun t =>
        if t.kind == TrackKind.audio then { t with enabled := !newMuteState } else t))
      isMuted := newMuteState }
    if st1.socketExists && st1.joined then
      (st1, [OutMsg.audioStateChangeMsg (!newMuteState)])
    else (st1, [])

/-- Every discrete task the component reacts to: inbound socket events
(with environment responses inlined as event data) and UI actions. -/
inductive Event
  | allUsers (users : List String)
  | initialVideoStates (states : List (String × Bool))
  | initialAudioStates (states : List (String × Bool))
  | userJoined (userId : String)
  | offerEvt (caller : String)
  | answerEvt (caller : String)
  | trackArrival (userId : String) (streamId : Nat)
  | remoteVideoState (userId : String) (enabled : Bool)
  | remoteAudioState (userId : String) (enabled : Bool)
  | userDisconnected (userId : String)
  | joinAttempt (rid : String) (roomExists : Bool) (media : Option (List MediaTrack))
  | leave
  | toggleVid
  | toggleMuteEvt

/-- One state transition per event, with the messages it emits. -/
def stepEvent (e : Event) (st : SessState) : SessState × List OutMsg :=
  match e with
  | Event.allUsers users => handleAllUsers users st
  | Event.initialVideoStates s =>
      ({ st with remoteVideos := handleInitialVideoStates s st.remoteVideos }, [])
  | Event.initialAudioStates s =>
      ({ st with remoteVideos := handleInitialAudioStates s st.remoteVideos }, [])
  | Event.userJoined u => (handleUserJoined u st, [])
  | Event.offerEvt caller => handleOffer caller st
  | Event.answerEvt caller => (handleAnswer caller st, [])
  | Event.trackArrival u sid =>
      ({ st with remoteVideos := ontrackUpdate u sid st.remoteVideos }, [])
  | Event.remoteVideoState u b =>
      ({ st with remoteVideos := handleRemoteVideoStateChange u b st.remoteVideos }, [])
  | Event.remoteAudioState u b =>
      ({ st with remoteVideos := handleRemoteAudioStateChange u b st.remoteVideos }, [])
  | Event.userDisconnected u => (handleUserDisconnected u st, [])
  | Event.joinAttempt rid ex media => joinRoom rid ex media st
  | Event.leave => (leaveRoom st, [])
  | Event.toggleVid => toggleVideo st
  | Event.toggleMuteEvt => toggleMute st

/-- States reachable from the mounted component by any event sequence. -/
inductive Reachable (selfId : String) : SessState → Prop
  | base : Reachable selfId (initState selfId)
  | next (e : Event) (st : SessState) :
      Reachable selfId st → Reachable selfId (stepEvent e st).1

/-- Well-formedness of the session state: the peer map binds each
participant at most once, bindings point into the connection arena, and
the participant count includes the local user. -/
def PeersWF (st : SessState) : Prop :=
  (st.peers.map Prod.fst).Nodup ∧
  (∀ p ∈ st.peers, p.2 < st.conns.length) ∧
  1 ≤ st.participantCount

/-- A concrete reachable state with one bound peer connection and a current
local stream: a successful join followed by a user-joined event. -/
def stJ : SessState :=
  (stepEvent (Event.userJoined "u")
    (stepEvent (Event.joinAttempt "123456" true
      (some [{ kind := TrackKind.video, enabled := true, stopped := false },
             { kind := TrackKind.audio, enabled := true, stopped := false }]))
      (initState "me")).1).1

/-! Arena helper lemmas. -/

lemma listAt_append_length {α : Type} (l : List α) (a : α) :
    listAt (l ++ [a]) l.length = some a := by
  induction l with
  | nil => rfl
  | cons x t ih => simpa [listAt] using ih

lemma listModify_length {α : Type} (l : List α) (i : Nat) (f : α → α) :
    (listModify l i f).length = l.length := by
  induction l generalizing i with
  | nil => rfl
  | cons x t ih => cases i <;> simp [listModify, ih]

lemma listAt_listModify_self {α : Type} (l : List α) (i : Nat) (f : α → α) :
    listAt (listModify l i f) i = (listAt l i).map f := by
  induction l generalizing i with
  | nil => rfl
  | cons x t ih => cases i <;> simp [listModify, listAt, ih]

lemma listModify_append_length {α : Type} (l : List α) (a : α) (f : α → α) :
    listModify (l ++ [a]) l.length f = l ++ [f a] := by
  induction l with
  | nil => rfl
  | cons x t ih => simpa [listModify] using ih

lemma listAt_of_lt {α : Type} (l : List α) (i : Nat) (h : i < l.length) :
    ∃ a, listAt l i = some a := by
  induction l generalizing i with
  | nil => simp at h
  | cons x t ih =>
    cases i with
    | zero => exact ⟨x, rfl⟩
    | succ i => exact ih i (Nat.lt_of_succ_lt_succ h)

lemma listAt_listModify_ne {α : Type} (l : List α) (i j : Nat) (f : α → α)
    (h : j ≠ i) : listAt (listModify l i f) j = listAt l j := by
  induction l generalizing i j with
  | nil => rfl
  | cons x t ih =>
    cases i with
    | zero =>
      cases j with
      | zero => exact absurd rfl h
      | succ j => simp [listModify, listAt]
    | succ i =>
      cases j with
      | zero => simp [listModify, listAt]
      | succ j =>
        simp only [listModify, listAt]
        exact ih i j (fun hh => h (by rw [hh]))

/-! Peer-map helper lemmas. -/

lemma peersLookup_insert_self (u : String) (cid : Nat) (l : List (String × Nat)) :
    peersLookup u (peersInsert u cid l) = some cid := by
  simp [peersLookup, peersInsert, List.find?]

lemma peersLookup_erase_self (u : String) (l : List (String × Nat)) :
    peersLookup u (peersErase u l) = none := by
  induction l with
  | nil => rfl
  | cons p t ih =>
    by_cases hp : (p.1 == u) = true
    · simp only [peersErase, List.filter_cons, hp] at ih ⊢
      simp
      exact ih
    · simp only [peersErase, List.filter_cons] at ih ⊢
      simp only [hp]
      simp [peersLookup, List.find?, hp]

lemma mem_peersInsert {u : String} {cid : Nat} {l : List (String × Nat)}
    {p : String × Nat} (h : p ∈ peersInsert u cid l) : p = (u, cid) ∨ p ∈ l := by
  rcases List.mem_cons.mp h with h1 | h1
  · exact Or.inl h1
  · exact Or.inr (List.mem_filter.mp h1).1

lemma mem_peersErase {u : String} {l : List (String × Nat)} {p : String × Nat}
    (h : p ∈ peersErase u l) : p ∈ l :=
  (List.mem_filter.mp h).1

lemma nodupKeys_peersInsert (u : String) (cid : Nat) (l : List (String × Nat))
    (h : (l.map Prod.fst).Nodup) : ((peersInsert u cid l).map Prod.fst).Nodup := by
  unfold peersInsert
  rw [List.map_cons, List.nodup_cons]
  refine ⟨?_, h.sublist (List.Sublist.map Prod.fst (List.filter_sublist l))⟩
  intro hmem
  rcases List.mem_map.mp hmem with ⟨p, hp, hpe⟩
  have hf := (List.mem_filter.mp hp).2
  simp [hpe] at hf

lemma nodupKeys_peersErase (u : String) (l : List (String × Nat))
    (h : (l.map Prod.fst).Nodup) : ((peersErase u l).map Prod.fst).Nodup :=
  h.sublist (List.Sublist.map Prod.fst (List.filter_sublist l))

/-! Preservation of PeersWF by every operation. -/

lemma wf_addPeer (u : String) (st : SessState) (h : PeersWF st) :
    PeersWF (addPeer u st).1 := by
  obtain ⟨h1, h2, h3⟩ := h
  refine ⟨nodupKeys_peersInsert _ _ _ h1, ?_, h3⟩
  intro p hp
  simp only [addPeer] at hp ⊢
  simp only [List.length_append, List.length_cons, List.length_nil]
  rcases mem_peersInsert hp with h4 | h4
  · subst h4; exact Nat.lt_succ_self _
  · have := h2 p h4; omega

lemma wf_createPeer (u : String) (st : SessState) (h : PeersWF st) :
    PeersWF (createPeer u st).1 := by
  obtain ⟨h1, h2, h3⟩ := h
  refine ⟨nodupKeys_peersInsert _ _ _ h1, ?_, h3⟩
  intro p hp
  simp only [createPeer] at hp ⊢
  simp only [List.length_append, List.length_cons, List.length_nil]
  rcases mem_peersInsert hp with h4 | h4
  · subst h4; exact Nat.lt_succ_self _
  · have := h2 p h4; omega

lemma wf_modifyConns (st : SessState) (i : Nat) (f : PeerConn → PeerConn)
    (h : PeersWF st) : PeersWF { st with conns := listModify st.conns i f } := by
  obtain ⟨h1, h2, h3⟩ := h
  exact ⟨h1, fun p hp => by
    show p.2 < (listModify st.conns i f).length
    rw [listModify_length]; exact h2 p hp, h3⟩

lemma wf_foldCreate (users : List String) (st : SessState) (msgs : List OutMsg)
    (h : PeersWF st) :
    PeersWF (users.foldl (fun acc u =>
      let r := createPeer u acc.1
      (r.1, acc.2 ++ r.2)) (st, msgs)).1 := by
  induction users generalizing st msgs with
  | nil => exact h
  | cons u t ih =>
    rw [List.foldl_cons]
    exact ih _ _ (wf_createPeer u st h)

lemma wf_handleAllUsers (users : List String) (st : SessState) (h : PeersWF st) :
    PeersWF (handleAllUsers users st).1 := by
  unfold handleAllUsers
  obtain ⟨h1, h2, h3⟩ := h
  exact wf_foldCreate users _ [] ⟨h1, h2, Nat.le_add_left 1 users.length⟩

lemma wf_handleUserJoined (u : String) (st : SessState) (h : PeersWF st) :
    PeersWF (handleUserJoined u st) := by
  unfold handleUserJoined
  by_cases hu : (u == st.selfId) = true
  · simpa [hu] using h
  · simp only [hu, Bool.false_eq_true, if_false]
    obtain ⟨h1, h2, h3⟩ := h
    exact wf_addPeer u _ ⟨h1, h2, Nat.le_add_left 1 st.participantCount⟩

lemma wf_handleOffer (caller : String) (st : SessState) (h : PeersWF st) :
    PeersWF (handleOffer caller st).1 := by
  unfold handleOffer
  cases hl : peersLookup caller st.peers with
  | some cid =>
    simp only [hl]
    cases hat : listAt st.conns cid with
    | none => exact h
    | some c =>
      simp only [hat]
      by_cases har : (applyRemoteDesc c DescType.offer).2 = true
      · simp only [har, if_true]
        exact wf_modifyConns st cid _ h
      · simp only [har, Bool.false_eq_true, if_false]
        exact wf_modifyConns st cid _ h
  | none =>
    simp only [hl]
    have hwf := wf_addPeer caller st h
    cases hat : listAt (addPeer caller st).1.conns (addPeer caller st).2 with
    | none => exact hwf
    | some c =>
      simp only [hat]
      by_cases har : (applyRemoteDesc c DescType.offer).2 = true
      · simp only [har, if_true]
        exact wf_modifyConns _ _ _ hwf
      · simp only [har, Bool.false_eq_true, if_false]
        exact wf_modifyConns _ _ _ hwf

lemma wf_handleAnswer (caller : String) (st : SessState) (h : PeersWF st) :
    PeersWF (handleAnswer caller st) := by
  unfold handleAnswer
  cases hl : peersLookup caller st.peers with
  | none => exact h
  | some cid => exact wf_modifyConns st cid _ h

lemma wf_handleUserDisconnected (u : String) (st : SessState) (h : PeersWF st) :
    PeersWF (handleUserDisconnected u st) := by
  unfold handleUserDisconnected
  cases hl : peersLookup u st.peers with
  | none => exact h
  | some cid =>
    obtain ⟨h1, h2, h3⟩ := h
    refine ⟨nodupKeys_peersErase u _ h1, ?_, ?_⟩
    · intro p hp
      show p.2 < (listModify st.conns cid _).length
      rw [listModify_length]
      exact h2 p (mem_peersErase hp)
    · show 1 ≤ max 1 (st.participantCount - 1)
      exact Nat.le_max_left 1 _

lemma getMediaStream_frame (m : Option (List MediaTrack)) (st : SessState) :
    (getMediaStream m st).1.peers = st.peers ∧
    (getMediaStream m st).1.conns = st.conns ∧
    (getMediaStream m st).1.participantCount = st.participantCount := by
  unfold getMediaStream
  cases m <;> exact ⟨rfl, rfl, rfl⟩

lemma wf_joinRoom (rid : String) (ex : Bool) (media : Option (List MediaTrack))
    (st : SessState) (h : PeersWF st) : PeersWF (joinRoom rid ex media st).1 := by
  obtain ⟨h1, h2, h3⟩ := h
  unfold joinRoom
  by_cases hr : (rid == "") = true
  · simp only [hr, if_true]
    exact ⟨h1, h2, h3⟩
  · simp only [hr, Bool.false_eq_true, if_false]
    set st1 := if st.socketExists && st.socketConnected then st
               else { st with socketExists := true, socketConnected := true } with hst1
    have hwf1 : (st1.peers.map Prod.fst).Nodup ∧
        (∀ p ∈ st1.peers, p.2 < st1.conns.length) ∧ 1 ≤ st1.participantCount := by
      rw [hst1]
      by_cases hs : (st.socketExists && st.socketConnected) = true
      · simpa [hs] using And.intro h1 (And.intro h2 h3)
      · simpa [hs] using And.intro h1 (And.intro h2 h3)
    by_cases he : (!ex) = true
    · simp only [he, if_true]
      exact ⟨hwf1.1, hwf1.2.1, hwf1.2.2⟩
    · simp only [he, Bool.false_eq_true, if_false]
      obtain ⟨g1, g2, g3⟩ := getMediaStream_frame media { st1 with errorMsg := "" }
      by_cases hm : (getMediaStream media { st1 with errorMsg := "" }).2 = true
      · simp only [hm, if_true]
        exact ⟨by simpa [g1] using hwf1.1,
               by simp only [g1, g2]; exact hwf1.2.1,
               by simpa [g3] using hwf1.2.2⟩
      · simp only [hm, Bool.false_eq_true, if_false]
        exact ⟨by simpa [g1] using hwf1.1,
               by simp only [g1, g2]; exact hwf1.2.1,
               by simpa [g3] using hwf1.2.2⟩

lemma wf_leaveRoom (st : SessState) : PeersWF (leaveRoom st) := by
  refine ⟨List.nodup_nil, ?_, Nat.le_refl 1⟩
  intro p hp
  exact absurd hp (List.not_mem_nil p)

lemma wf_toggleVideo (st : SessState) (h : PeersWF st) :
    PeersWF (toggleVideo st).1 := by
  unfold toggleVideo
  cases st.localStream with
  | none => exact h
  | some sid =>
    obtain ⟨h1, h2, h3⟩ := h
    by_cases hc : (st.socketExists && st.joined) = true
    · simp only [hc, if_true]; exact ⟨h1, h2, h3⟩
    · simp only [hc, Bool.false_eq_true, if_false]; exact ⟨h1, h2, h3⟩

lemma wf_toggleMute (st : SessState) (h : PeersWF st) :
    PeersWF (toggleMute st).1 := by
  unfold toggleMute
  cases st.localStream with
  | none => exact h
  | some sid =>
    obtain ⟨h1, h2, h3⟩ := h
    by_cases hc : (st.socketExists && st.joined) = true
    · simp only [hc, if_true]; exact ⟨h1, h2, h3⟩
    · simp only [hc, Bool.false_eq_true, if_false]; exact ⟨h1, h2, h3⟩

lemma wf_step (e : Event) (st : SessState) (h : PeersWF st) :
    PeersWF (stepEvent e st).1 := by
  cases e with
  | allUsers users => exact wf_handleAllUsers users st h
  | initialVideoStates s => exact ⟨h.1, h.2.1, h.2.2⟩
  | initialAudioStates s => exact ⟨h.1, h.2.1, h.2.2⟩
  | userJoined u => exact wf_handleUserJoined u st h
  | offerEvt caller => exact wf_handleOffer caller st h
  | answerEvt caller => exact wf_handleAnswer caller st h
  | trackArrival u sid => exact ⟨h.1, h.2.1, h.2.2⟩
  | remoteVideoState u b => exact ⟨h.1, h.2.1, h.2.2⟩
  | remoteAudioState u b => exact ⟨h.1, h.2.1, h.2.2⟩
  | userDisconnected u => exact wf_handleUserDisconnected u st h
  | joinAttempt rid ex media => exact wf_joinRoom rid ex media st h
  | leave => exact wf_leaveRoom st
  | toggleVid => exact wf_toggleVideo st h
  | toggleMuteEvt => exact wf_toggleMute st h

lemma reachable_wf (selfId : String) (st : SessState)
    (h : Reachable selfId st) : PeersWF st := by
  induction h with
  | base =>
    exact ⟨List.nodup_nil, fun p hp => absurd hp (List.not_mem_nil p), Nat.le_refl 1⟩
  | next e st hst ih => exact wf_step e st ih

lemma foldClose_listAt (l : List (String × Nat)) (cs : List PeerConn) (i : Nat) :
    listAt (l.foldl (fun a q =>
        listModify a q.2 (fun c => { c with closed := true })) cs) i =
      if l.any (fun q => q.2 == i) then
        (listAt cs i).map (fun c => { c with closed := true })
      else listAt cs i := by
  induction l generalizing cs with
  | nil => simp
  | cons q t ih =>
    rw [List.foldl_cons, ih, List.any_cons]
    by_cases hq : q.2 = i
    · subst hq
      simp only [beq_self_eq_true, Bool.true_or, if_true]
      by_cases ht : t.any (fun r => r.2 == q.2) = true
      · rw [if_pos ht, listAt_listModify_self]
        cases listAt cs q.2 with
        | none => rfl
        | some c => cases c; rfl
      · rw [if_neg ht, listAt_listModify_self]
    · have hqb : (q.2 == i) = false := by
        exact beq_eq_false_iff_ne.mpr hq
      rw [listAt_listModify_ne cs q.2 i _ (fun hh => hq hh.symm)]
      simp only [hqb, Bool.false_or]

lemma peersLookup_mem {u : String} {l : List (String × Nat)} {cid : Nat}
    (h : peersLookup u l = some cid) : ∃ p ∈ l, p.2 = cid := by
  unfold peersLookup at h
  cases hf : l.find? (fun p => p.1 == u) with
  | none => rw [hf] at h; exact absurd h (by simp)
  | some p =>
    rw [hf] at h
    simp only [Option.map_some'] at h
    exact ⟨p, List.mem_of_find?_eq_some hf, Option.some.inj h⟩

lemma noMatch_of_any_eq_false (u : String) (prev : List RemoteVideo)
    (h : prev.any (fun v => v.id == u) = false) :
    ∀ v ∈ prev, (v.id == u) = false := by
  induction prev with
  | nil => intro v hv; exact absurd hv (List.not_mem_nil v)
  | cons w t ih =>
    rw [List.any_cons, Bool.or_eq_false_iff] at h
    intro v hv
    rcases List.mem_cons.mp hv with rfl | hv
    · exact h.1
    · exact ih h.2 v hv

lemma map_ite_id (u : String) (g : RemoteVideo → RemoteVideo)
    (prev : List RemoteVideo) (hm : ∀ v ∈ prev, (v.id == u) = false) :
    prev.map (fun v => if v.id == u then g v else v) = prev := by
  induction prev with
  | nil => rfl
  | cons w t ih =>
    rw [List.map_cons, ih (fun v hv => hm v (List.mem_cons_of_mem w hv))]
    have hw := hm w (List.mem_cons_self w t)
    simp [hw]

lemma snapshotLookup_eq_none (states : List (String × Bool)) (k : String)
    (hk : ∀ q ∈ states, (q.1 == k) = false) : snapshotLookup states k = none := by
  induction states with
  | nil => rfl
  | cons q t ih =>
    have hq := hk q (List.mem_cons_self q t)
    unfold snapshotLookup at ih ⊢
    rw [List.find?_cons_of_neg]
    · exact ih (fun r hr => hk r (List.mem_cons_of_mem q hr))
    · simp [hq]

lemma any_stateChange (u w : String) (b : Bool) (prev : List RemoteVideo) :
    (handleRemoteVideoStateChange u b prev).any (fun v => v.id == w) =
      prev.any (fun v => v.id == w) := by
  unfold handleRemoteVideoStateChange
  induction prev with
  | nil => rfl
  | cons v t ih =>
    rw [List.map_cons, List.any_cons, List.any_cons, ih]
    by_cases hv : (v.id == u) = true
    · simp [hv]
    · simp [hv]

lemma handleOffer_unknown (st : SessState) (caller : String)
    (h1 : peersLookup caller st.peers = none) :
    handleOffer caller st =
      ({ st with conns := st.conns ++
                   [{ closed := false, sigState := SigState.stable,
                      tracksAttached := st.localStream.isSome,
                      setRemoteAttempts := 1, remoteDescApplied := 1 }]
                 peers := peersInsert caller st.conns.length st.peers },
       [OutMsg.answerMsg caller]) := by
  unfold handleOffer addPeer
  simp only [h1, listAt_append_length]
  simp [applyRemoteDesc, newConn, listModify_append_length]

/-! Claim theorems. -/

/-- C1 (counterexample): starting from an empty collection, a video
state-change event carrying false that arrives before the first track for
the same identifier is dropped, so the two orders give different final
entries: track-then-state ends with videoActive false, state-then-track
regresses to the default true. -/
theorem trackArrival_stateChange_not_commute_on_empty :
    handleRemoteVideoStateChange "u" false (ontrackUpdate "u" 0 []) ≠
      ontrackUpdate "u" 0 (handleRemoteVideoStateChange "u" false []) := by
  decide

/-- C1 (amended): provided the participant identifier already has an entry
in the Remote Participant Collection, processing the inbound track arrival
and the inbound video activity-flag change in either order yields the same
final collection, and the merged entry carries the media handle from the
track event together with the flag value from the state event, neither
resetting the other to its default. -/
theorem trackArrival_stateChange_commute_of_member (u : String) (s : Nat)
    (b : Bool) (prev : List RemoteVideo)
    (h : prev.any (fun v => v.id == u) = true) :
    handleRemoteVideoStateChange u b (ontrackUpdate u s prev) =
      ontrackUpdate u s (handleRemoteVideoStateChange u b prev) ∧
    ∀ v ∈ handleRemoteVideoStateChange u b (ontrackUpdate u s prev),
      v.id = u → v.stream = some s ∧ v.videoActive = some b := by
  have hany2 : (handleRemoteVideoStateChange u b prev).any (fun v => v.id == u) = true := by
    rw [any_stateChange]; exact h
  constructor
  · unfold ontrackUpdate
    rw [if_pos h, if_pos hany2]
    unfold handleRemoteVideoStateChange
    rw [List.map_map, List.map_map]
    apply List.map_congr_left
    intro v _
    by_cases hv : (v.id == u) = true
    · simp [Function.comp, hv]
    · simp [Function.comp, hv]
  · intro v hv hid
    unfold ontrackUpdate at hv
    rw [if_pos h] at hv
    unfold handleRemoteVideoStateChange at hv
    rw [List.map_map] at hv
    rcases List.mem_map.mp hv with ⟨v0, hv0, rfl⟩
    by_cases hv0id : (v0.id == u) = true
    · simp [Function.comp, hv0id]
    · exfalso
      simp only [Function.comp, hv0id, Bool.false_eq_true, if_false] at hid
      exact hv0id (beq_iff_eq.mpr hid)

/-- C1 (witness): the amended commutativity at a concrete one-entry
collection, track arrival of stream 7 against videoStateChange false. -/
theorem trackArrival_stateChange_commute_witness :
    handleRemoteVideoStateChange "u" false
        (ontrackUpdate "u" 7 [{ id := "u", stream := none,
                                videoActive := some true, audioActive := some true }]) =
      ontrackUpdate "u" 7
        (handleRemoteVideoStateChange "u" false
          [{ id := "u", stream := none,
             videoActive := some true, audioActive := some true }]) :=
  (trackArrival_stateChange_commute_of_member "u" 7 false _ (by decide)).1

/-- C2 (counterexample): an offer from an unknown identifier creates
connection 0; a subsequent user-joined event for the same identifier binds
a fresh connection 1, and the replaced connection 0 is left open
(closed = false) rather than closed before or upon replacement. -/
theorem stale_conn_left_open_on_user_joined :
    peersLookup "u" (handleUserJoined "u" (handleOffer "u" (initState "me")).1).peers
        = some 1 ∧
    (listAt (handleUserJoined "u" (handleOffer "u" (initState "me")).1).conns 0).map
        PeerConn.closed = some false := by
  decide

/-- C2 (amended): in every reachable state the peer map binds each
participant identifier at most once (no duplicate keys), and an inbound
offer for an identifier that already has a connection reuses it without
touching the peer map; the close-before-replacement half of the claim
fails on user-joined (see the counterexample). -/
theorem peer_map_at_most_one (selfId : String) :
    (∀ st, Reachable selfId st → (st.peers.map Prod.fst).Nodup) ∧
    (∀ st caller cid, peersLookup caller st.peers = some cid →
      (handleOffer caller st).1.peers = st.peers) := by
  constructor
  · intro st h
    exact (reachable_wf selfId st h).1
  · intro st caller cid h
    unfold handleOffer
    simp only [h]
    cases hat : listAt st.conns cid with
    | none => rfl
    | some c =>
      by_cases har : (applyRemoteDesc c DescType.offer).2 = true
      · simp only [har, if_true]
      · simp only [har, Bool.false_eq_true, if_false]

/-- C2 (witness): key uniqueness in a concrete reachable state, and
offer-handling on a bound identifier leaving the peer map unchanged. -/
theorem peer_map_at_most_one_witness :
    ((stepEvent (Event.userJoined "u") (initState "me")).1.peers.map Prod.fst).Nodup ∧
    (handleOffer "u" (handleOffer "u" (initState "me")).1).1.peers =
      (handleOffer "u" (initState "me")).1.peers :=
  ⟨(peer_map_at_most_one "me").1 _ (Reachable.next _ _ Reachable.base),
   (peer_map_at_most_one "me").2 _ "u" 0 (by decide)⟩

/-- C3 (counterexample): for a connection that has completed the responder
handshake (signaling state stable, one applied description, one attempt),
a subsequently arriving duplicate answer still triggers a
setRemoteDescription call — the attempt counter rises to 2 — so the
handler performs no signaling-state check before reapplying. -/
theorem duplicate_answer_attempted_reapply :
    (listAt (handleOffer "u" (initState "me")).1.conns 0).map PeerConn.sigState
        = some SigState.stable ∧
    (listAt (handleOffer "u" (initState "me")).1.conns 0).map PeerConn.setRemoteAttempts
        = some 1 ∧
    (listAt (handleAnswer "u" (handleOffer "u" (initState "me")).1).conns 0).map
        PeerConn.setRemoteAttempts = some 2 := by
  decide

/-- C3 (amended): the answer handler checks no signaling state and always
attempts setRemoteDescription on the bound connection; on an
already-stable (connected) connection the platform rejects the call, the
error is caught, and the connection keeps its signaling state and its
applied-description count — the duplicate is re-attempted but not
reapplied, and the rest of the session state is untouched. -/
theorem duplicate_answer_swallowed (st : SessState) (caller : String)
    (cid : Nat) (c : PeerConn) (h1 : peersLookup caller st.peers = some cid)
    (h2 : listAt st.conns cid = some c) (h3 : c.sigState = SigState.stable) :
    listAt (handleAnswer caller st).conns cid =
      some { c with setRemoteAttempts := c.setRemoteAttempts + 1 } ∧
    (listAt (handleAnswer caller st).conns cid).map PeerConn.sigState
        = some SigState.stable ∧
    (listAt (handleAnswer caller st).conns cid).map PeerConn.remoteDescApplied
        = some c.remoteDescApplied ∧
    (handleAnswer caller st).peers = st.peers ∧
    (handleAnswer caller st).remoteVideos = st.remoteVideos := by
  have key : listAt (handleAnswer caller st).conns cid =
      some { c with setRemoteAttempts := c.setRemoteAttempts + 1 } := by
    unfold handleAnswer
    simp only [h1]
    show listAt (listModify st.conns cid _) cid = _
    rw [listAt_listModify_self, h2]
    show some (applyRemoteDesc c DescType.answer).1 = _
    unfold applyRemoteDesc
    rw [h3]
    cases hc : c.closed <;> simp [hc]
  have hrest : (handleAnswer caller st).peers = st.peers ∧
      (handleAnswer caller st).remoteVideos = st.remoteVideos := by
    unfold handleAnswer
    simp only [h1]
    constructor <;> first | rfl | trivial
  refine ⟨key, ?_, ?_, hrest.1, hrest.2⟩
  · rw [key]
    simp [h3]
  · rw [key]
    simp

/-- C3 (witness): the amended behaviour at the concrete connected
connection produced by handling an offer from an unknown caller. -/
theorem duplicate_answer_swallowed_witness :
    listAt (handleAnswer "u" (handleOffer "u" (initState "me")).1).conns 0 =
      some { closed := false, sigState := SigState.stable, tracksAttached := false,
             setRemoteAttempts := 2, remoteDescApplied := 1 } :=
  (duplicate_answer_swallowed (handleOffer "u" (initState "me")).1 "u" 0
    { closed := false, sigState := SigState.stable, tracksAttached := false,
      setRemoteAttempts := 1, remoteDescApplied := 1 }
    (by decide) (by decide) rfl).1

/-- C4: a join on a non-empty identifier whose existence check answers
false only sets the not-found error: no media request is made, no
join-room message is sent (only the check-room query), and every other
component of the state — remote collection, peer map, joined flag,
streams, counts, identifiers — is unchanged. -/
theorem joinRoom_room_not_found (st : SessState) (rid : String)
    (media : Option (List MediaTrack)) (h1 : rid ≠ "")
    (h2 : st.socketExists = true) (h3 : st.socketConnected = true) :
    joinRoom rid false media st =
      ({ st with errorMsg := roomNotFoundMsg }, [OutMsg.checkRoom rid]) := by
  unfold joinRoom
  have hr : (rid == "") = false := beq_eq_false_iff_ne.mpr h1
  simp [hr, h2, h3]

/-- C4 (witness): joining the missing room 123456 from the pristine state
yields exactly the not-found error and the check-room query. -/
theorem joinRoom_room_not_found_witness :
    joinRoom "123456" false none (initState "me") =
      ({ initState "me" with errorMsg := roomNotFoundMsg },
       [OutMsg.checkRoom "123456"]) :=
  joinRoom_room_not_found (initState "me") "123456" none (by decide) rfl rfl

/-- C5: joining an existing room when media acquisition fails aborts the
join with the media-access error: one media request is recorded, no
join-room message is sent, and the joined flag and all session state are
unchanged. -/
theorem joinRoom_media_denied_aborts (st : SessState) (rid : String)
    (h1 : rid ≠ "") (h2 : st.socketExists = true) (h3 : st.socketConnected = true) :
    joinRoom rid true none st =
      ({ st with errorMsg := mediaFailMsg,
                 mediaRequests := st.mediaRequests + 1 },
       [OutMsg.checkRoom rid]) := by
  unfold joinRoom getMediaStream
  have hr : (rid == "") = false := beq_eq_false_iff_ne.mpr h1
  simp [hr, h2, h3]

/-- C5 (witness): a failed acquisition on existing room 123456 from the
pristine state aborts before any join-room message. -/
theorem joinRoom_media_denied_aborts_witness :
    joinRoom "123456" true none (initState "me") =
      ({ initState "me" with errorMsg := mediaFailMsg, mediaRequests := 1 },
       [OutMsg.checkRoom "123456"]) :=
  joinRoom_media_denied_aborts (initState "me") "123456" (by decide) rfl rfl

/-- C6: leaveRoom is idempotent — the second of two consecutive calls is a
no-op; after a call the peer map and remote collection are empty, there is
no current stream, every connection that was bound in the peer map is
closed, every track of the stream that was current is stopped, the room
identifiers and joined flag are reset, the count is one; on the pristine
mounted state, when nothing is joined, it changes nothing at all. -/
theorem leaveRoom_idempotent_releases (st : SessState) :
    leaveRoom (leaveRoom st) = leaveRoom st ∧
    (leaveRoom st).peers = [] ∧
    (leaveRoom st).remoteVideos = [] ∧
    (leaveRoom st).localStream = none ∧
    (leaveRoom st).joined = false ∧
    (leaveRoom st).roomId = "" ∧
    (leaveRoom st).roomUrl = "" ∧
    (leaveRoom st).participantCount = 1 ∧
    (∀ p ∈ st.peers,
      (listAt (leaveRoom st).conns p.2).map PeerConn.closed ≠ some false) ∧
    (∀ sid, st.localStream = some sid →
      ∀ ts, listAt (leaveRoom st).streams sid = some ts →
        ∀ t ∈ ts, t.stopped = true) ∧
    leaveRoom (initState st.selfId) = initState st.selfId := by
  refine ⟨rfl, rfl, rfl, rfl, rfl, rfl, rfl, rfl, ?_, ?_, rfl⟩
  · intro p hp
    show (listAt (st.peers.foldl
        (fun cs q => listModify cs q.2 (fun c => { c with closed := true }))
        st.conns) p.2).map PeerConn.closed ≠ some false
    rw [foldClose_listAt]
    have hany : st.peers.any (fun q => q.2 == p.2) = true :=
      List.any_eq_true.mpr ⟨p, hp, by simp⟩
    rw [if_pos hany]
    cases listAt st.conns p.2 with
    | none => simp
    | some c => simp
  · intro sid hsid ts hts t ht
    simp only [leaveRoom, hsid] at hts
    rw [listAt_listModify_self] at hts
    cases hat : listAt st.streams sid with
    | none =>
      rw [hat] at hts
      exact absurd hts (by simp)
    | some ts0 =>
      rw [hat] at hts
      simp only [Option.map_some'] at hts
      have hts2 : stopTracks ts0 = ts := Option.some.inj hts
      rw [← hts2] at ht
      unfold stopTracks at ht
      rcases List.mem_map.mp ht with ⟨t0, ht0, rfl⟩
      rfl

/-- C6 (witness): idempotence and connection release at the concrete
joined state stJ with one bound peer. -/
theorem leaveRoom_idempotent_releases_witness :
    leaveRoom (leaveRoom stJ) = leaveRoom stJ ∧
    (listAt (leaveRoom stJ).conns 0).map PeerConn.closed ≠ some false := by
  refine ⟨(leaveRoom_idempotent_releases stJ).1, ?_⟩
  exact (leaveRoom_idempotent_releases stJ).2.2.2.2.2.2.2.2.1 ("u", 0) (by decide)

/-- C7: with a current capture stream, a socket, and the joined flag set,
toggling video twice returns the flag to its original value, and each
individual toggle emits exactly one videoStateChange broadcast carrying
the new flag value. -/
theorem toggleVideo_involution_single_broadcast (st : SessState) (sid : Nat)
    (h1 : st.localStream = some sid) (h2 : st.joined = true)
    (h3 : st.socketExists = true) :
    (toggleVideo st).2 = [OutMsg.videoStateChangeMsg (!st.isVideoEnabled)] ∧
    (toggleVideo (toggleVideo st).1).2 = [OutMsg.videoStateChangeMsg st.isVideoEnabled] ∧
    (toggleVideo (toggleVideo st).1).1.isVideoEnabled = st.isVideoEnabled := by
  unfold toggleVideo
  simp [h1, h2, h3]

/-- C7 (witness): the double toggle at the concrete joined state stJ with
video initially enabled. -/
theorem toggleVideo_involution_witness :
    (toggleVideo stJ).2 = [OutMsg.videoStateChangeMsg false] ∧
    (toggleVideo (toggleVideo stJ).1).1.isVideoEnabled = stJ.isVideoEnabled := by
  have h := toggleVideo_involution_single_broadcast stJ 0 (by decide) (by decide) (by decide)
  exact ⟨h.1, h.2.2⟩

/-- C8: a user-disconnected notification for an identifier with a bound
connection closes that connection, removes the binding and the entry from
the remote collection, and decrements the participant count clamped at
one; moreover in every reachable state the count is at least one. -/
theorem userDisconnected_cleanup_count_floor (selfId : String) (st : SessState)
    (u : String) (cid : Nat) (hr : Reachable selfId st)
    (h : peersLookup u st.peers = some cid) :
    (listAt (handleUserDisconnected u st).conns cid).map PeerConn.closed = some true ∧
    peersLookup u (handleUserDisconnected u st).peers = none ∧
    (handleUserDisconnected u st).remoteVideos =
      st.remoteVideos.filter (fun v => !(v.id == u)) ∧
    (handleUserDisconnected u st).participantCount = max 1 (st.participantCount - 1) ∧
    (∀ st2, Reachable selfId st2 → 1 ≤ st2.participantCount) := by
  have hcid : cid < st.conns.length := by
    rcases peersLookup_mem h with ⟨p, hp, hpe⟩
    have := (reachable_wf selfId st hr).2.1 p hp
    rw [hpe] at this
    exact this
  unfold handleUserDisconnected
  simp only [h]
  refine ⟨?_, ?_, by first | rfl | trivial, by first | rfl | trivial, ?_⟩
  · show (listAt (listModify st.conns cid _) cid).map PeerConn.closed = some true
    rw [listAt_listModify_self]
    rcases listAt_of_lt st.conns cid hcid with ⟨c, hc⟩
    rw [hc]
    rfl
  · exact peersLookup_erase_self u st.peers
  · intro st2 h2
    exact (reachable_wf selfId st2 h2).2.2

/-- C8 (witness): disconnecting the only remote participant of a concrete
reachable state closes its connection. -/
theorem userDisconnected_cleanup_witness :
    (listAt (handleUserDisconnected "u"
        (stepEvent (Event.userJoined "u") (initState "me")).1).conns 0).map
      PeerConn.closed = some true :=
  (userDisconnected_cleanup_count_floor "me"
    (stepEvent (Event.userJoined "u") (initState "me")).1 "u" 0
    (Reachable.next _ _ Reachable.base) (by decide)).1

/-- C9: an inbound offer whose caller has no bound connection is not
dropped: a responder connection is created on the fly with the local
tracks attached, the offer is applied and answered (one accepted remote
description, signaling back to stable), and the synthesized answer is
transmitted addressed to the caller. -/
theorem offer_unknown_caller_creates_answers (st : SessState) (caller : String)
    (h1 : peersLookup caller st.peers = none) (h2 : st.localStream.isSome = true) :
    peersLookup caller (handleOffer caller st).1.peers = some st.conns.length ∧
    listAt (handleOffer caller st).1.conns st.conns.length =
      some { closed := false, sigState := SigState.stable, tracksAttached := true,
             setRemoteAttempts := 1, remoteDescApplied := 1 } ∧
    (handleOffer caller st).2 = [OutMsg.answerMsg caller] := by
  rw [handleOffer_unknown st caller h1]
  refine ⟨?_, ?_, rfl⟩
  · exact peersLookup_insert_self caller st.conns.length st.peers
  · show listAt (st.conns ++ [_]) st.conns.length = _
    rw [listAt_append_length, h2]

/-- C9 (witness): the on-the-fly responder path at the concrete joined
state stJ for the unknown caller w. -/
theorem offer_unknown_caller_witness :
    peersLookup "w" (handleOffer "w" stJ).1.peers = some 1 ∧
    (handleOffer "w" stJ).2 = [OutMsg.answerMsg "w"] := by
  have h := offer_unknown_caller_creates_answers stJ "w" (by decide) (by decide)
  exact ⟨h.1, h.2.2⟩

lemma handleInitialAudioStates_id (states : List (String × Bool))
    (prev : List RemoteVideo)
    (hm : ∀ v ∈ prev, snapshotLookup states v.id = none) :
    handleInitialAudioStates states prev = prev := by
  induction prev with
  | nil => rfl
  | cons w t ih =>
    unfold handleInitialAudioStates at ih ⊢
    rw [List.map_cons, ih (fun v hv => hm v (List.mem_cons_of_mem w hv)),
        hm w (List.mem_cons_self w t)]

/-- C10: a remoteVideoStateChange or remoteAudioStateChange naming an
identifier with no entry, and an initial-audio-states snapshot all of
whose keys have no entry, leave the Remote Participant Collection entirely
unchanged: no entry is created and the carried flag values are discarded. -/
theorem stateEvents_unknown_id_no_effect (u : String) (b : Bool)
    (prev : List RemoteVideo) (states : List (String × Bool))
    (h : prev.any (fun v => v.id == u) = false)
    (hs : ∀ q ∈ states, prev.any (fun v => v.id == q.1) = false) :
    handleRemoteVideoStateChange u b prev = prev ∧
    handleRemoteAudioStateChange u b prev = prev ∧
    handleInitialAudioStates states prev = prev := by
  have hm := noMatch_of_any_eq_false u prev h
  refine ⟨?_, ?_, ?_⟩
  · exact map_ite_id u _ prev hm
  · exact map_ite_id u _ prev hm
  · have hnone : ∀ v ∈ prev, snapshotLookup states v.id = none := by
      intro v hv
      apply snapshotLookup_eq_none
      intro q hq
      have h2 := noMatch_of_any_eq_false q.1 prev (hs q hq) v hv
      have h3 : v.id ≠ q.1 := beq_eq_false_iff_ne.mp h2
      exact beq_eq_false_iff_ne.mpr (fun hh => h3 hh.symm)
    exact handleInitialAudioStates_id states prev hnone

/-- C10 (witness): a concrete one-entry collection is untouched by state
events naming a different identifier. -/
theorem stateEvents_unknown_id_witness :
    handleRemoteVideoStateChange "u" false
        [{ id := "w", stream := none, videoActive := some true, audioActive := some true }] =
      [{ id := "w", stream := none, videoActive := some true, audioActive := some true }] ∧
    handleInitialAudioStates [("u", false)]
        [{ id := "w", stream := none, videoActive := some true, audioActive := some true }] =
      [{ id := "w", stream := none, videoActive := some true, audioActive := some true }] := by
  have h := stateEvents_unknown_id_no_effect "u" false
    [{ id := "w", stream := none, videoActive := some true, audioActive := some true }]
    [("u", false)] (by decide) (by decide)
  exact ⟨h.1, h.2.2⟩

end WebRTCApp
